import Mathlib

/-!
Verification development for the github-agent repository.

Shallow embedding of the claim-relevant parts of `webhook_server.py`
(the webhook append path) and `server.py` (the MCP tool layer:
`get_recent_actions_events`, `get_workflow_status`, `analyze_file_changes`,
`suggest_template`).  Machine-level concerns (HTTP transport, logging,
the MCP registration layer) are out of scope, as in the specification.
-/

namespace GithubAgent

/-- The claim-relevant fields of a `workflow_run` payload
(`server.py` lines 424-434 read exactly these). -/
structure WorkflowRun where
  name : String
  status : String
  conclusion : Option String
  run_number : Nat
  updated_at : String
  html_url : String
deriving DecidableEq

/-- One persisted event record, as built by `handle_webhook`
(`webhook_server.py` lines 23-31).  The `check_run` payload is an opaque
passthrough (no tool reads inside it), so it is modelled as a string. -/
structure Event where
  timestamp : String
  event_type : String
  action : Option String
  workflow_run : Option WorkflowRun
  check_run : Option String
  repository : Option String
  sender : Option String
deriving DecidableEq

/-- State of the backing events file `github_events.json`: absent,
present but not parseable as JSON, or a well-formed JSON array of events. -/
inductive FileState
  | absent
  | corrupt
  | wellFormed (events : List Event)
deriving DecidableEq

/-- The fault raised by Python's `json.load` on unparseable input
(`json.JSONDecodeError`). -/
inductive JsonError
  | decodeError
deriving DecidableEq

/-- Python list slicing `a[start:]`: a negative `start` counts from the
end (clamped at 0), a nonnegative `start` is clamped at `len(a)`. -/
def pyDropFrom {α : Type} (a : List α) (start : Int) : List α :=
  if start < 0 then a.drop ((a.length : Int) + start).toNat else a.drop start.toNat

/-- `get_recent_actions_events` (`server.py` lines 378-392): missing file
yields the empty array; an unparseable file lets `json.JSONDecodeError`
propagate (there is no try/except); otherwise the slice `events[-limit:]`
is returned.  The Python default for `limit` is 3. -/
def get_recent_actions_events (file : FileState) (limit : Int := 3) :
    Except JsonError (List Event) :=
  match file with
  | .absent => .ok []
  | .corrupt => .error .decodeError
  | .wellFormed events => .ok (pyDropFrom events (-limit))

/-- One append as performed by `handle_webhook` (`webhook_server.py`
lines 33-46): read the current log (empty when the file is absent, and
also when it is corrupt — the `json.JSONDecodeError` is caught there),
append the new event, keep only the last 100 (`events[-100:]`). -/
def appendEvent (file : FileState) (e : Event) : List Event :=
  let events : List Event :=
    match file with
    | .wellFormed evs => evs
    | _ => []
  pyDropFrom (events ++ [e]) (-(100 : Int))

/-- The file state after a completed append (the save step writes the
truncated list back as the new canonical content). -/
def appendToFile (file : FileState) (e : Event) : FileState :=
  .wellFormed (appendEvent file e)

/-- A sequence of appends, one `handle_webhook` call per event. -/
def appendAll (file : FileState) (evs : List Event) : FileState :=
  evs.foldl appendToFile file

/-- A concrete event used in closed-form tests below. -/
def sampleEvent (i : Nat) : Event :=
  { timestamp := toString i
    event_type := "workflow_run"
    action := some "completed"
    workflow_run := none
    check_run := none
    repository := some "octo/repo"
    sender := some "octocat" }

/- ### Workflow-status aggregation (`server.py` lines 395-436) -/

/-- Result of `get_workflow_status`: either the "no events yet" message
object or the list of per-workflow status records. -/
structure WorkflowStatus where
  name : String
  status : String
  conclusion : Option String
  run_number : Nat
  updated_at : String
  html_url : String
deriving DecidableEq

inductive GwsResult
  | message (m : String)
  | statuses (l : List WorkflowStatus)
deriving DecidableEq

/-- The status record built at `server.py` lines 427-434. -/
def statusOfRun (run : WorkflowRun) : WorkflowStatus :=
  { name := run.name
    status := run.status
    conclusion := run.conclusion
    run_number := run.run_number
    updated_at := run.updated_at
    html_url := run.html_url }

/-- Insertion-ordered dictionary, as Python's `dict`: a key list in first
insertion order, updates in place. -/
abbrev WfDict := List (String × WorkflowStatus)

def dictLookup (d : WfDict) (k : String) : Option WorkflowStatus :=
  (d.find? (fun p => p.1 = k)).map (·.2)

/-- `workflows[name] = value`: overwrite the (unique) existing binding
in place when the key exists, append otherwise (Python dicts keep
first-insertion order, and the dicts built here have unique keys). -/
def dictSet : WfDict → String → WorkflowStatus → WfDict
  | [], k, v => [(k, v)]
  | p :: rest, k, v => if p.1 = k then (k, v) :: rest else p :: dictSet rest k v

/-- The body of the `for event in workflow_events` loop (`server.py`
lines 423-434): keep the stored record unless the key is new or the
incoming `updated_at` string is strictly greater. -/
def wfStep (d : WfDict) (run : WorkflowRun) : WfDict :=
  match dictLookup d run.name with
  | none => dictSet d run.name (statusOfRun run)
  | some cur =>
    if cur.updated_at < run.updated_at then dictSet d run.name (statusOfRun run)
    else d

def wfFold (d : WfDict) (runs : List WorkflowRun) : WfDict :=
  runs.foldl wfStep d

/-- `get_workflow_status` (`server.py` lines 395-436): missing file or
empty log yield the message object; an unparseable file lets
`json.JSONDecodeError` propagate (no try/except); otherwise filter to
events carrying a `workflow_run`, optionally filter by name (Python
truthiness: a `None` or empty-string filter is skipped), and reduce. -/
def get_workflow_status (file : FileState) (workflow_name : Option String := none) :
    Except JsonError GwsResult :=
  match file with
  | .absent => .ok (.message "No GitHub Actions events received yet")
  | .corrupt => .error .decodeError
  | .wellFormed events =>
    match events with
    | [] => .ok (.message "No GitHub Actions events received yet")
    | _ :: _ =>
      let workflow_events : List Event := events.filter (fun e => e.workflow_run.isSome)
      let workflow_events : List Event :=
        match workflow_name with
        | some n =>
          if n = "" then workflow_events
          else workflow_events.filter
            (fun e => e.workflow_run.map (fun r => r.name) = some n)
        | none => workflow_events
      let runs : List WorkflowRun := workflow_events.filterMap (fun e => e.workflow_run)
      .ok (.statuses ((wfFold [] runs).map (·.2)))

/-- The workflow runs `get_workflow_status` iterates over when no name
filter applies: the `workflow_run` payloads of the events carrying one,
in log order. -/
def runsOf (events : List Event) : List WorkflowRun :=
  (events.filter (fun e => e.workflow_run.isSome)).filterMap (fun e => e.workflow_run)

/- ### File-system trace of the webhook save step (`webhook_server.py` 49-53) -/

/-- The file-system operations the claim-relevant code can perform:
open-for-write (Python `open(path, 'w')`, which truncates the file at
once), a write of serialized data, closing, and an atomic rename. -/
inductive FsOp
  | openTrunc (path : String)
  | writeAll (path : String) (data : String)
  | closeFile (path : String)
  | rename (src : String) (dst : String)
deriving DecidableEq

/-- The canonical events file (`EVENTS_FILE`). -/
def eventsFilePath : String := "github_events.json"

/-- The save step of `handle_webhook` (`webhook_server.py` lines 49-51):
`with open(EVENTS_FILE, 'w') as f: json.dump(events, f, indent=2)` —
it opens the canonical file itself for writing (truncating it) and
writes the serialized events into it in place. -/
def saveOps (serialized : String) : List FsOp :=
  [.openTrunc eventsFilePath, .writeAll eventsFilePath serialized,
   .closeFile eventsFilePath]

/-- Whether an operation modifies the canonical file other than by an
atomic rename (i.e. writes it in place). -/
def writesCanonicalInPlace (canonical : String) : FsOp → Bool
  | .openTrunc p => p == canonical
  | .writeAll p _ => p == canonical
  | .closeFile _ => false
  | .rename _ _ => false

/-- Stated from the claim's words, for comparison with `saveOps`: the
append path writes only to a temporary location (never the canonical
file in place) and installs the new content by a platform-atomic rename
onto the canonical file. -/
def atomicReplaceDiscipline (canonical : String) (ops : List FsOp) : Bool :=
  ops.all (fun op => !writesCanonicalInPlace canonical op) &&
  ops.any (fun op =>
    match op with
    | .rename _ dst => dst == canonical
    | _ => false)

/-- Content of the canonical events file after one operation.  Opening
for write truncates immediately; a write appends to what was written so
far.  (The save path performs no rename, so a rename leaves the
canonical content unchanged in this model.) -/
def applyOp (content : String) (op : FsOp) : String :=
  match op with
  | .openTrunc p => if p == eventsFilePath then "" else content
  | .writeAll p d => if p == eventsFilePath then content ++ d else content
  | .closeFile _ => content
  | .rename _ _ => content

def contentsAfter (oldContent : String) (ops : List FsOp) : String :=
  ops.foldl applyOp oldContent

/-- Everything a reader opening the canonical file between any two
operations (or before/after all of them) can observe. -/
def observableContents (oldContent : String) (ops : List FsOp) : List String :=
  (List.range (ops.length + 1)).map (fun k => contentsAfter oldContent (ops.take k))

/- ### Change analysis (`server.py` lines 63-256) -/

/-- One external `git` invocation as issued by `analyze_file_changes`:
its argv, the `timeout=` keyword argument (absent for the commit-list
query, `server.py` lines 177-182), and whether `check=True` was passed. -/
structure GitCall where
  args : List String
  timeout : Option Nat
  check : Bool
deriving DecidableEq

/-- Behaviour of the external process a call would run: its output,
exit status, how long it runs, and whether the executable exists. -/
structure ProcSpec where
  stdout : String
  stderr : String
  returncode : Int
  duration : Nat
  found : Bool
deriving DecidableEq

/-- Behaviour of the five git queries, one `ProcSpec` each. -/
structure GitEnv where
  filesList : ProcSpec
  filesStatus : ProcSpec
  stat : ProcSpec
  diff : ProcSpec
  log : ProcSpec
deriving DecidableEq

/-- What `subprocess.run` can produce: a completed process, or a raised
`TimeoutExpired`, `FileNotFoundError`, or `CalledProcessError`. -/
inductive StepResult
  | completed (stdout stderr : String) (returncode : Int)
  | raisedTimeout
  | raisedNotFound
  | raisedProcessError (returncode : Int) (stderr : String)
deriving DecidableEq

/-- Whether a `timeout=` bound was passed and the process outlives it;
with no `timeout=` keyword, `subprocess.run` never raises
`TimeoutExpired` — it blocks however long the process runs. -/
def timeoutGuard (spec : ProcSpec) (oct : Option Nat) : Bool :=
  match oct with
  | some t => decide (t < spec.duration)
  | none => false

/-- `subprocess.run`: `FileNotFoundError` when the executable is
missing; `TimeoutExpired` when a passed `timeout=` is exceeded;
`CalledProcessError` when `check=True` and the exit status is nonzero;
otherwise the completed process. -/
def runGit (spec : ProcSpec) (call : GitCall) : StepResult :=
  if spec.found = false then .raisedNotFound
  else if timeoutGuard spec call.timeout then .raisedTimeout
  else if call.check = true ∧ spec.returncode ≠ 0 then
    .raisedProcessError spec.returncode spec.stderr
  else .completed spec.stdout spec.stderr spec.returncode

/-- The `analysis` dict built at `server.py` lines 186-194. -/
structure AnalysisSuccess where
  base_branch : String
  files_changed : String
  statistics : String
  commits : String
  diff : String
  truncated : Bool
  total_diff_lines : Nat
deriving DecidableEq

/-- The structured results `analyze_file_changes` can return: the
success dict, or one of the outer exception handlers' error objects
(`server.py` lines 199-224). -/
inductive AnalyzeResult
  | success (a : AnalysisSuccess)
  | timeoutError (details : String)
  | gitFailedError (details : String)
  | notFoundError (details : String)
deriving DecidableEq

def AnalyzeResult.isSuccess : AnalyzeResult → Bool
  | .success _ => true
  | _ => false

/-- `server.py` line 200: the timeout handler's detail text, with the
raising call's timeout value (always `command_timeout`) interpolated. -/
def timeoutDetails (t : Nat) : String :=
  "Git command timed out after " ++ toString t ++
    " seconds. The repository might be too large or the diff too complex."

/-- `server.py` line 209 (the outer `CalledProcessError` handler). -/
def gitFailedDetails (code : Int) (err : String) : String :=
  "Git command failed with exit code " ++ toString code ++ ": " ++
    (if err = "" then "No output" else err)

/-- `server.py` line 218. -/
def notFoundDetails : String :=
  "Git command not found. Make sure Git is installed and in your PATH."

/-- `server.py` line 191: the diff placeholder when `include_diff` is false. -/
def diffNotIncluded : String :=
  "Diff not included (set include_diff=true to see full diff)"

/-- `server.py` lines 167-168: the truncation notice appended after the
kept lines, naming how many of how many lines are shown and the
parameter to request more. -/
def truncationNotice (shown total : Nat) : String :=
  "\n\n... Output truncated. Showing " ++ toString shown ++ " of " ++
    toString total ++
    " lines ...\n... Use max_diff_lines parameter to see more ..."

/-- Python `str.split('\n')`: cut at every newline, keeping empty
pieces (a trailing newline yields a trailing empty piece). -/
def splitLinesAux : List Char → List Char → List String
  | [], acc => [String.mk acc.reverse]
  | c :: cs, acc =>
    if c = '\n' then String.mk acc.reverse :: splitLinesAux cs []
    else splitLinesAux cs (c :: acc)

def splitNl (s : String) : List String := splitLinesAux s.data []

/-- Python `'\n'.join`. -/
def joinNl : List String → String
  | [] => ""
  | [x] => x
  | x :: y :: xs => x ++ "\n" ++ joinNl (y :: xs)

def isPyWhitespace (c : Char) : Bool :=
  c = ' ' ∨ c = '\t' ∨ c = '\n' ∨ c = '\r'

/-- Python `str.strip()` (over the whitespace the git outputs contain). -/
def pyStrip (s : String) : String :=
  String.mk (((s.data.dropWhile isPyWhitespace).reverse.dropWhile
    isPyWhitespace).reverse)

/-- `server.py` line 112: strip each line of the name-only output and
drop the empties (Python `splitlines` on newline-separated output). -/
def changedFilesOf (stdout : String) : List String :=
  ((splitNl stdout).map pyStrip).filter (fun f => f ≠ "")

/-- `server.py` lines 104-111. -/
def filesListCall (base : String) (ct : Nat) : GitCall :=
  { args := ["git", "diff", "--name-only", base ++ "..HEAD"],
    timeout := some ct, check := true }

/-- `server.py` lines 118-125: capped at the first 100 changed files. -/
def filesStatusCall (base : String) (ct : Nat) (files : List String) : GitCall :=
  { args := ["git", "diff", "--name-status", "--no-renames", base ++ "..HEAD", "--"]
      ++ files.take 100,
    timeout := some ct, check := true }

/-- `server.py` lines 140-146. -/
def statCall (base : String) (ct : Nat) : GitCall :=
  { args := ["git", "diff", "--stat", base ++ "...HEAD"],
    timeout := some ct, check := false }

/-- `server.py` lines 154-160. -/
def diffCall (base : String) (ct : Nat) : GitCall :=
  { args := ["git", "diff", base ++ "...HEAD"],
    timeout := some ct, check := false }

/-- `server.py` lines 177-182: note the missing `timeout=` keyword. -/
def logCall (base : String) : GitCall :=
  { args := ["git", "log", "--oneline", base ++ "..HEAD"],
    timeout := none, check := false }

/-- The inner try block (`server.py` lines 102-135): the name-only
query, then — only when files changed — the name-status query on the
first 100 of them.  Any exception raised inside, including a timeout or
the nonzero-exit `CalledProcessError` from `check=True`, is caught by
the inner handlers, which replace the file listing with an empty string
(logging it) and let the analysis continue.  Returns the resulting
`files_result.stdout` and the trace of calls issued. -/
def innerFilesStep (env : GitEnv) (base : String) (ct : Nat) : String × List GitCall :=
  match runGit env.filesList (filesListCall base ct) with
  | .completed out _ _ =>
    if (changedFilesOf out).isEmpty then ("", [filesListCall base ct])
    else
      match runGit env.filesStatus (filesStatusCall base ct (changedFilesOf out)) with
      | .completed out2 _ _ =>
        (out2, [filesListCall base ct, filesStatusCall base ct (changedFilesOf out)])
      | _ => ("", [filesListCall base ct, filesStatusCall base ct (changedFilesOf out)])
  | _ => ("", [filesListCall base ct])

/-- `server.py` lines 161-171: split the diff output on newlines; if the
count exceeds `max_diff_lines`, keep the first `max_diff_lines` lines
joined back with newlines followed by the truncation notice and mark
truncated; otherwise keep the raw output.  Returns
(diff_content, truncated, total line count). -/
def truncateDiff (stdout : String) (max_diff_lines : Nat) : String × Bool × Nat :=
  if max_diff_lines < (splitNl stdout).length then
    (joinNl ((splitNl stdout).take max_diff_lines) ++
      truncationNotice max_diff_lines (splitNl stdout).length,
     true, (splitNl stdout).length)
  else (stdout, false, (splitNl stdout).length)

/-- `analyze_file_changes` (`server.py` lines 63-256), with the trace of
git invocations issued.  The MCP-context working-directory discovery
and the logging are external and not modelled; the outer exception
handlers appear as the error-result arms.  Python defaults:
`base_branch="master"`, `include_diff=False`, `max_diff_lines=5000`,
`command_timeout=180`. -/
def analyze_file_changes (env : GitEnv) (base_branch : String := "master")
    (include_diff : Bool := false) (max_diff_lines : Nat := 5000)
    (command_timeout : Nat := 180) : AnalyzeResult × List GitCall :=
  match runGit env.stat (statCall base_branch command_timeout) with
  | .raisedTimeout =>
    (.timeoutError (timeoutDetails command_timeout),
     (innerFilesStep env base_branch command_timeout).2 ++
       [statCall base_branch command_timeout])
  | .raisedNotFound =>
    (.notFoundError notFoundDetails,
     (innerFilesStep env base_branch command_timeout).2 ++
       [statCall base_branch command_timeout])
  | .raisedProcessError code err =>
    (.gitFailedError (gitFailedDetails code err),
     (innerFilesStep env base_branch command_timeout).2 ++
       [statCall base_branch command_timeout])
  | .completed statOut _ _ =>
    if include_diff then
      match runGit env.diff (diffCall base_branch command_timeout) with
      | .raisedTimeout =>
        (.timeoutError (timeoutDetails command_timeout),
         (innerFilesStep env base_branch command_timeout).2 ++
           [statCall base_branch command_timeout, diffCall base_branch command_timeout])
      | .raisedNotFound =>
        (.notFoundError notFoundDetails,
         (innerFilesStep env base_branch command_timeout).2 ++
           [statCall base_branch command_timeout, diffCall base_branch command_timeout])
      | .raisedProcessError code err =>
        (.gitFailedError (gitFailedDetails code err),
         (innerFilesStep env base_branch command_timeout).2 ++
           [statCall base_branch command_timeout, diffCall base_branch command_timeout])
      | .completed diffOut _ _ =>
        match runGit env.log (logCall base_branch) with
        | .completed logOut _ _ =>
          (.success ⟨base_branch,
              (innerFilesStep env base_branch command_timeout).1,
              statOut, logOut,
              (truncateDiff diffOut max_diff_lines).1,
              (truncateDiff diffOut max_diff_lines).2.1,
              (truncateDiff diffOut max_diff_lines).2.2⟩,
           (innerFilesStep env base_branch command_timeout).2 ++
             [statCall base_branch command_timeout,
              diffCall base_branch command_timeout, logCall base_branch])
        | .raisedTimeout =>
          (.timeoutError (timeoutDetails command_timeout),
           (innerFilesStep env base_branch command_timeout).2 ++
             [statCall base_branch command_timeout,
              diffCall base_branch command_timeout, logCall base_branch])
        | .raisedNotFound =>
          (.notFoundError notFoundDetails,
           (innerFilesStep env base_branch command_timeout).2 ++
             [statCall base_branch command_timeout,
              diffCall base_branch command_timeout, logCall base_branch])
        | .raisedProcessError code err =>
          (.gitFailedError (gitFailedDetails code err),
           (innerFilesStep env base_branch command_timeout).2 ++
             [statCall base_branch command_timeout,
              diffCall base_branch command_timeout, logCall base_branch])
    else
      match runGit env.log (logCall base_branch) with
      | .completed logOut _ _ =>
        (.success ⟨base_branch,
            (innerFilesStep env base_branch command_timeout).1,
            statOut, logOut, diffNotIncluded, false, 0⟩,
         (innerFilesStep env base_branch command_timeout).2 ++
           [statCall base_branch command_timeout, logCall base_branch])
      | .raisedTimeout =>
        (.timeoutError (timeoutDetails command_timeout),
         (innerFilesStep env base_branch command_timeout).2 ++
           [statCall base_branch command_timeout, logCall base_branch])
      | .raisedNotFound =>
        (.notFoundError notFoundDetails,
         (innerFilesStep env base_branch command_timeout).2 ++
           [statCall base_branch command_timeout, logCall base_branch])
      | .raisedProcessError code err =>
        (.gitFailedError (gitFailedDetails code err),
         (innerFilesStep env base_branch command_timeout).2 ++
           [statCall base_branch command_timeout, logCall base_branch])

/- ### Template selection (`server.py` lines 45-59 and 337-373) -/

/-- `TYPE_MAPPING` (`server.py` lines 45-59), in source order. -/
def TYPE_MAPPING : List (String × String) :=
  [("bug", "bug.md"), ("fix", "bug.md"),
   ("feature", "feature.md"), ("enhancement", "feature.md"),
   ("docs", "docs.md"), ("documentation", "docs.md"),
   ("refactor", "refactor.md"), ("cleanup", "refactor.md"),
   ("test", "test.md"), ("testing", "test.md"),
   ("performance", "performance.md"), ("optimization", "performance.md"),
   ("security", "security.md")]

/-- Python `dict.get(key, default)` over the mapping. -/
def typeMappingGet (key dflt : String) : String :=
  match TYPE_MAPPING.find? (fun p => p.1 = key) with
  | some p => p.2
  | none => dflt

/-- Python `str.lower()` (ASCII labels, as the mapping keys are). -/
def pyLower (s : String) : String := String.mk (s.data.map Char.toLower)

/-- One catalog entry as listed by `get_pr_templates`. -/
structure Template where
  filename : String
  tmplType : String
  content : String
deriving DecidableEq

inductive SuggestResult
  | error (msg : String) (suggestion : String)
  | ok (recommended : Template) (reasoning : String) (template_content : String)
      (usage_hint : String)
deriving DecidableEq

/-- `server.py` line 360: lowercase the caller's label and look it up,
falling back to the feature template file. -/
def selectedFileFor (change_type : String) : String :=
  typeMappingGet (pyLower change_type) "feature.md"

/-- `suggest_template` (`server.py` lines 337-373), given the catalog
listing (the parsed `templates` array; a catalog-level error from
`get_pr_templates` is returned verbatim and is the external
collaborator's concern, so it is not modelled).  Lines 354-358: empty
catalog → error object.  Lines 360-364: resolve the selected filename
against the catalog, defaulting to the first entry on no match. -/
def suggest_template (templates : List Template)
    (changes_summary change_type : String) : SuggestResult :=
  match templates with
  | [] =>
    .error "No templates available"
      "Please ensure template files exist in the templates directory"
  | t0 :: _ =>
    let selected :=
      (templates.find? (fun t => t.filename = selectedFileFor change_type)).getD t0
    .ok selected
      ("Based on your analysis: \x27" ++ changes_summary ++
        "\x27, this appears to be a " ++ change_type ++ " change.")
      selected.content
      "Claude can help you fill out this template based on the specific changes in your PR."

/-- A git query that completes at once, successfully, with the given
output. -/
def okStep (out : String) : ProcSpec :=
  { stdout := out, stderr := "", returncode := 0, duration := 0, found := true }

/-- An environment where all five queries behave. -/
def envAllOk : GitEnv :=
  { filesList := okStep "a.py\n"
    filesStatus := okStep "M\ta.py\n"
    stat := okStep " 1 file changed\n"
    diff := okStep "diff --git a\n"
    log := okStep "abc123 msg\n" }

/-- All fine except: the commit-list query runs far longer than any
timeout. -/
def envSlowLog : GitEnv :=
  { envAllOk with
    log := { stdout := "abc123 msg\n", stderr := "", returncode := 0,
             duration := 1000000000, found := true } }

/-- All fine except: the file-list query outlives the timeout. -/
def envFilesTimeout : GitEnv :=
  { envAllOk with
    filesList := { stdout := "", stderr := "", returncode := 0,
                   duration := 1000000000, found := true } }

/-- All fine except: the diff-statistics query outlives the timeout. -/
def envStatTimeout : GitEnv :=
  { envAllOk with
    stat := { stdout := "", stderr := "", returncode := 0,
              duration := 1000000000, found := true } }

/-- All fine except: the file-list query exits with status 1. -/
def envFilesFail : GitEnv :=
  { envAllOk with
    filesList := { stdout := "", stderr := "fatal: bad revision", returncode := 1,
                   duration := 0, found := true } }

end GithubAgent

namespace GithubAgent

/-- C10: on an existing log of k ≥ 1 events, `limit = 0` makes the slice
`events[-0:] = events[0:]`, i.e. all events, and a negative limit `-n`
makes it `events[n:]`, all but the first n. -/
theorem C10_zero_and_negative_limit (events : List Event) (h : 1 ≤ events.length) :
    get_recent_actions_events (.wellFormed events) 0 = .ok events ∧
    ∀ n : Nat, get_recent_actions_events (.wellFormed events) (-(n : Int)) =
      .ok (events.drop n) := by
  constructor
  · simp [get_recent_actions_events, pyDropFrom]
  · intro n
    simp [get_recent_actions_events, pyDropFrom]

/-- Witness for C10 at a concrete two-event log. -/
theorem C10_witness :
    get_recent_actions_events (.wellFormed [sampleEvent 1, sampleEvent 2]) 0 =
      .ok [sampleEvent 1, sampleEvent 2] ∧
    get_recent_actions_events (.wellFormed [sampleEvent 1, sampleEvent 2]) (-(1 : Int)) =
      .ok [sampleEvent 2] :=
  ⟨(C10_zero_and_negative_limit [sampleEvent 1, sampleEvent 2] (by decide)).1, by
    simpa using (C10_zero_and_negative_limit [sampleEvent 1, sampleEvent 2] (by decide)).2 1⟩

/-- C4 counterexample: when the backing file exists but cannot be parsed
as JSON, both `get_recent_actions_events` and `get_workflow_status` let
the decode fault propagate uncaught (there is no try/except around
`json.load`), instead of returning a structured result. -/
theorem C4_counterexample :
    get_recent_actions_events .corrupt 3 = .error .decodeError ∧
    get_workflow_status .corrupt none = .error .decodeError :=
  ⟨rfl, rfl⟩

/-- Slicing from a strictly negative index keeps the last `n` elements. -/
theorem pyDropFrom_neg {α : Type} (a : List α) (n : Nat) (hn : 0 < n) :
    pyDropFrom a (-(n : Int)) = a.drop (a.length - n) := by
  unfold pyDropFrom
  rw [if_pos (by omega : (-(n : Int)) < 0)]
  congr 1
  omega

/-- Slicing `a[-limit:]` returns the whole list once `limit` covers its length. -/
theorem pyDropFrom_all {α : Type} (a : List α) (limit : Int)
    (h : (a.length : Int) ≤ limit) : pyDropFrom a (-limit) = a := by
  unfold pyDropFrom
  by_cases hl : (-limit) < 0
  · rw [if_pos hl]
    have h0 : ((a.length : Int) + -limit).toNat = 0 := by omega
    rw [h0, List.drop_zero]
  · rw [if_neg hl]
    have hlen : a.length = 0 := by omega
    rw [List.length_eq_zero.mp hlen]
    simp

theorem appendEvent_wellFormed (log : List Event) (e : Event) :
    appendEvent (.wellFormed log) e = (log ++ [e]).drop ((log.length + 1) - 100) := by
  show pyDropFrom (log ++ [e]) (-(100 : Int)) = _
  unfold pyDropFrom
  rw [if_pos (by omega : (-100 : Int) < 0)]
  congr 1
  simp only [List.length_append, List.length_cons, List.length_nil]
  omega

/-- Folding appends over a well-formed log of at most 100 events keeps
exactly the last 100 of the concatenated history, in order. -/
theorem appendAll_wellFormed (evs : List Event) :
    ∀ log : List Event, log.length ≤ 100 →
      appendAll (.wellFormed log) evs =
        .wellFormed ((log ++ evs).drop ((log.length + evs.length) - 100)) := by
  induction evs with
  | nil =>
    intro log h
    simp [appendAll, Nat.sub_eq_zero_of_le h]
  | cons e rest ih =>
    intro log h
    have step : appendAll (.wellFormed log) (e :: rest) =
        appendAll (.wellFormed (appendEvent (.wellFormed log) e)) rest := rfl
    rw [step, appendEvent_wellFormed]
    have ha_le : (log.length + 1) - 100 ≤ (log ++ [e]).length := by
      simp only [List.length_append, List.length_cons, List.length_nil]
      omega
    have hlen' : ((log ++ [e]).drop ((log.length + 1) - 100)).length ≤ 100 := by
      simp only [List.length_drop, List.length_append, List.length_cons, List.length_nil]
      omega
    rw [ih _ hlen']
    congr 1
    rw [(List.drop_append_of_le_length ha_le).symm, List.drop_drop]
    have h2 : (log ++ [e]) ++ rest = log ++ e :: rest := by simp
    rw [h2]
    congr 1
    simp only [List.length_drop, List.length_append, List.length_cons, List.length_nil]
    omega

/-- C1 counterexample: four events are appended (4 ≤ 100), yet
`get_recent_actions_events` at its default limit (3) returns only the
last three of them, not the four appended events. -/
theorem C1_counterexample :
    ([sampleEvent 1, sampleEvent 2, sampleEvent 3, sampleEvent 4] : List Event).length ≤ 100 ∧
    get_recent_actions_events
        (appendAll .absent [sampleEvent 1, sampleEvent 2, sampleEvent 3, sampleEvent 4]) =
      .ok [sampleEvent 2, sampleEvent 3, sampleEvent 4] ∧
    ([sampleEvent 2, sampleEvent 3, sampleEvent 4] : List Event) ≠
      [sampleEvent 1, sampleEvent 2, sampleEvent 3, sampleEvent 4] :=
  ⟨by decide, rfl, by decide⟩

/-- C1 amended: after appending N events to an empty store the persisted
log is exactly the last `min N 100` of them in append order (so its
length never exceeds 100 and on overflow the oldest are dropped first),
and a read whose `limit` covers the log — `limit ≥ N` when `N ≤ 100`,
`limit ≥ 100` when `N > 100` — returns exactly that retained suffix,
oldest first.  (The Python default `limit=3` returns only the last 3.) -/
theorem C1_amended_retention (evs : List Event) :
    (evs ≠ [] → appendAll .absent evs = .wellFormed (evs.drop (evs.length - 100))) ∧
    (evs.drop (evs.length - 100)).length ≤ 100 ∧
    (evs.length ≤ 100 → ∀ limit : Int, (evs.length : Int) ≤ limit →
      get_recent_actions_events (appendAll .absent evs) limit = .ok evs) ∧
    (100 < evs.length → ∀ limit : Int, (100 : Int) ≤ limit →
      get_recent_actions_events (appendAll .absent evs) limit =
        .ok (evs.drop (evs.length - 100))) := by
  have key : evs ≠ [] →
      appendAll .absent evs = .wellFormed (evs.drop (evs.length - 100)) := by
    intro hne
    match evs with
    | [] => exact absurd rfl hne
    | e :: rest =>
      have h0 : appendAll .absent (e :: rest) = appendAll (.wellFormed [e]) rest := rfl
      rw [h0, appendAll_wellFormed rest [e] (by simp)]
      congr 1
      rw [List.singleton_append]
      congr 1
      simp only [List.length_cons, List.length_nil]
      omega
  refine ⟨key, ?_, ?_, ?_⟩
  · simp only [List.length_drop]
    omega
  · intro hN limit hlim
    by_cases hne : evs = []
    · subst hne
      rfl
    · rw [key hne, Nat.sub_eq_zero_of_le hN, List.drop_zero]
      show Except.ok (pyDropFrom evs (-limit)) = Except.ok evs
      rw [pyDropFrom_all evs limit hlim]
  · intro hN limit hlim
    have hne : evs ≠ [] := by
      intro h
      rw [h] at hN
      simp at hN
    rw [key hne]
    show Except.ok (pyDropFrom (evs.drop (evs.length - 100)) (-limit)) = _
    rw [pyDropFrom_all _ limit (by simp only [List.length_drop]; omega)]

/-- C2 counterexample: the save step of the webhook append path does not
follow the temporary-file-plus-atomic-rename discipline the claim
describes: it opens the canonical events file itself for writing
(truncating it) and writes the new JSON in place, and performs no
rename at all. -/
theorem C2_counterexample :
    atomicReplaceDiscipline eventsFilePath (saveOps "[]") = false ∧
    (saveOps "[]").any (writesCanonicalInPlace eventsFilePath) = true := by
  decide

/-- C2 amended: the append path writes the canonical events file in
place (no temporary file, no rename), so although a completed save does
leave the fully-new content, a reader opening the file between the
truncating open and the completed write observes a state — the
truncated, empty file — that is neither the fully-old nor the fully-new
content. -/
theorem C2_amended_in_place_write (old new : String) (h1 : old ≠ "") (h2 : new ≠ "") :
    (saveOps new).any (writesCanonicalInPlace eventsFilePath) = true ∧
    atomicReplaceDiscipline eventsFilePath (saveOps new) = false ∧
    contentsAfter old (saveOps new) = new ∧
    ∃ s ∈ observableContents old (saveOps new), s ≠ old ∧ s ≠ new := by
  have hobs : observableContents old (saveOps new) = [old, "", "" ++ new, "" ++ new] := rfl
  refine ⟨rfl, rfl, ?_, ?_⟩
  · show "" ++ new = new
    simp
  · refine ⟨"", ?_, Ne.symm h1, Ne.symm h2⟩
    rw [hobs]
    exact List.mem_cons_of_mem _ (List.mem_cons_self _ _)

/-- Witness for C2 amended at concrete old and new file contents. -/
theorem C2_amended_witness :
    (saveOps "[2]").any (writesCanonicalInPlace eventsFilePath) = true ∧
    atomicReplaceDiscipline eventsFilePath (saveOps "[2]") = false ∧
    contentsAfter "[1]" (saveOps "[2]") = "[2]" ∧
    ∃ s ∈ observableContents "[1]" (saveOps "[2]"), s ≠ "[1]" ∧ s ≠ "[2]" :=
  C2_amended_in_place_write "[1]" "[2]" (by decide) (by decide)

/-- Witness for C1 amended at a concrete two-event history with limit 5. -/
theorem C1_amended_witness :
    appendAll .absent [sampleEvent 1, sampleEvent 2] =
      .wellFormed (([sampleEvent 1, sampleEvent 2] : List Event).drop
        (([sampleEvent 1, sampleEvent 2] : List Event).length - 100)) ∧
    get_recent_actions_events (appendAll .absent [sampleEvent 1, sampleEvent 2]) 5 =
      .ok [sampleEvent 1, sampleEvent 2] :=
  ⟨(C1_amended_retention [sampleEvent 1, sampleEvent 2]).1 (by decide),
   (C1_amended_retention [sampleEvent 1, sampleEvent 2]).2.2.1 (by decide) 5 (by decide)⟩

/- ### Dictionary lemmas for the workflow-status reduction -/

theorem dictLookup_cons_of_eq (p : String × WorkflowStatus) (d : WfDict) (k : String)
    (h : p.1 = k) : dictLookup (p :: d) k = some p.2 := by
  unfold dictLookup
  rw [List.find?_cons_of_pos _ (by simpa using h)]
  rfl

theorem dictLookup_cons_of_ne (p : String × WorkflowStatus) (d : WfDict) (k : String)
    (h : p.1 ≠ k) : dictLookup (p :: d) k = dictLookup d k := by
  unfold dictLookup
  rw [List.find?_cons_of_neg _ (by simpa using h)]

theorem dictLookup_dictSet_self (d : WfDict) (k : String) (v : WorkflowStatus) :
    dictLookup (dictSet d k v) k = some v := by
  induction d with
  | nil => exact dictLookup_cons_of_eq (k, v) [] k rfl
  | cons p rest ih =>
    show dictLookup (if p.1 = k then (k, v) :: rest else p :: dictSet rest k v) k = some v
    by_cases hp : p.1 = k
    · rw [if_pos hp]
      exact dictLookup_cons_of_eq _ _ _ rfl
    · rw [if_neg hp, dictLookup_cons_of_ne _ _ _ hp]
      exact ih

theorem dictLookup_dictSet_other (d : WfDict) (k k' : String) (v : WorkflowStatus)
    (hkk : k' ≠ k) : dictLookup (dictSet d k v) k' = dictLookup d k' := by
  induction d with
  | nil =>
    show dictLookup [(k, v)] k' = dictLookup ([] : WfDict) k'
    rw [dictLookup_cons_of_ne _ _ _ (Ne.symm hkk)]
  | cons p rest ih =>
    show dictLookup (if p.1 = k then (k, v) :: rest else p :: dictSet rest k v) k' = _
    by_cases hp : p.1 = k
    · rw [if_pos hp, dictLookup_cons_of_ne (k, v) rest k' (Ne.symm hkk),
        dictLookup_cons_of_ne p rest k' (by rw [hp]; exact Ne.symm hkk)]
    · rw [if_neg hp]
      by_cases hpk : p.1 = k'
      · rw [dictLookup_cons_of_eq _ _ _ hpk, dictLookup_cons_of_eq _ _ _ hpk]
      · rw [dictLookup_cons_of_ne _ _ _ hpk, dictLookup_cons_of_ne _ _ _ hpk]
        exact ih

theorem wfStep_lookup_none (d : WfDict) (run : WorkflowRun)
    (h : dictLookup d run.name = none) :
    wfStep d run = dictSet d run.name (statusOfRun run) := by
  unfold wfStep
  rw [h]

theorem wfStep_lookup_some (d : WfDict) (run : WorkflowRun) (cur : WorkflowStatus)
    (h : dictLookup d run.name = some cur) :
    wfStep d run =
      if cur.updated_at < run.updated_at then dictSet d run.name (statusOfRun run)
      else d := by
  unfold wfStep
  rw [h]

theorem dictLookup_wfStep_other (d : WfDict) (run : WorkflowRun) (k : String)
    (h : run.name ≠ k) : dictLookup (wfStep d run) k = dictLookup d k := by
  cases hcur : dictLookup d run.name with
  | none =>
    rw [wfStep_lookup_none d run hcur]
    exact dictLookup_dictSet_other _ _ _ _ (Ne.symm h)
  | some cur =>
    rw [wfStep_lookup_some d run cur hcur]
    by_cases hc : cur.updated_at < run.updated_at
    · rw [if_pos hc]
      exact dictLookup_dictSet_other _ _ _ _ (Ne.symm h)
    · rw [if_neg hc]

/-- Once the dict holds the dominating run's record, later steps whose
runs are all dominated (or the run itself again) never replace it. -/
theorem wfFold_lookup_persist (rest : List WorkflowRun) (k : String) (r : WorkflowRun)
    (hk : r.name = k)
    (hdom : ∀ r' ∈ rest, r'.name = k → r' = r ∨ r'.updated_at < r.updated_at) :
    ∀ d : WfDict, dictLookup d k = some (statusOfRun r) →
      dictLookup (wfFold d rest) k = some (statusOfRun r) := by
  induction rest with
  | nil => exact fun d hd => hd
  | cons r' rest' ih =>
    intro d hd
    have hfold : wfFold d (r' :: rest') = wfFold (wfStep d r') rest' := rfl
    rw [hfold]
    apply ih (fun q hq hqk => hdom q (List.mem_cons_of_mem _ hq) hqk)
    by_cases hname : r'.name = k
    · rw [wfStep_lookup_some d r' (statusOfRun r) (by rw [hname]; exact hd)]
      rcases hdom r' (List.mem_cons_self _ _) hname with heq | hlt
      · subst heq
        rw [if_neg (show ¬ (statusOfRun r').updated_at < r'.updated_at from lt_irrefl _)]
        exact hd
      · rw [if_neg (show ¬ (statusOfRun r).updated_at < r'.updated_at from lt_asymm hlt)]
        exact hd
    · rw [dictLookup_wfStep_other d r' k hname]
      exact hd

/-- The reduction loop: if `r` is in the run list, carries name `k`, and
strictly dominates (by `updated_at`) every other run named `k` in the
list and everything already stored for `k`, the final dict maps `k` to
exactly `r`'s record — wherever `r` sits in the list. -/
theorem wfFold_lookup_max (runs : List WorkflowRun) (k : String) (r : WorkflowRun)
    (hk : r.name = k) :
    ∀ d : WfDict, r ∈ runs →
      (∀ r' ∈ runs, r'.name = k → r' = r ∨ r'.updated_at < r.updated_at) →
      (∀ v, dictLookup d k = some v → v.updated_at < r.updated_at) →
      dictLookup (wfFold d runs) k = some (statusOfRun r) := by
  induction runs with
  | nil => exact fun d hr _ _ => absurd hr (List.not_mem_nil r)
  | cons r0 rest ih =>
    intro d hr hdom hd
    have hfold : wfFold d (r0 :: rest) = wfFold (wfStep d r0) rest := rfl
    rw [hfold]
    by_cases h0 : r0 = r
    · subst h0
      have hstep : dictLookup (wfStep d r0) k = some (statusOfRun r0) := by
        cases hcur : dictLookup d r0.name with
        | none =>
          rw [wfStep_lookup_none d r0 hcur, hk]
          exact dictLookup_dictSet_self _ _ _
        | some cur =>
          have hcu : cur.updated_at < r0.updated_at :=
            hd cur (by rw [← hk]; exact hcur)
          rw [wfStep_lookup_some d r0 cur hcur, if_pos hcu, hk]
          exact dictLookup_dictSet_self _ _ _
      exact wfFold_lookup_persist rest k r0 hk
        (fun q hq hqk => hdom q (List.mem_cons_of_mem _ hq) hqk) _ hstep
    · have hrrest : r ∈ rest := by
        rcases List.mem_cons.mp hr with h | h
        · exact absurd h.symm h0
        · exact h
      apply ih _ hrrest (fun q hq hqk => hdom q (List.mem_cons_of_mem _ hq) hqk)
      intro v hv
      by_cases hname : r0.name = k
      · rcases hdom r0 (List.mem_cons_self _ _) hname with heq | hlt
        · exact absurd heq h0
        · cases hcur : dictLookup d r0.name with
          | none =>
            rw [wfStep_lookup_none d r0 hcur, hname, dictLookup_dictSet_self] at hv
            cases hv
            exact hlt
          | some cur =>
            rw [wfStep_lookup_some d r0 cur hcur] at hv
            by_cases hc : cur.updated_at < r0.updated_at
            · rw [if_pos hc, hname, dictLookup_dictSet_self] at hv
              cases hv
              exact hlt
            · rw [if_neg hc] at hv
              exact hd v hv
      · rw [dictLookup_wfStep_other d r0 k hname] at hv
        exact hd v hv

theorem dictSet_names (d : WfDict) (k : String) (v : WorkflowStatus)
    (hd : ∀ p ∈ d, (p.2).name = p.1) (hv : v.name = k) :
    ∀ p ∈ dictSet d k v, (p.2).name = p.1 := by
  induction d with
  | nil =>
    intro p hp
    rw [List.mem_singleton.mp hp]
    exact hv
  | cons q rest ih =>
    intro p hp
    by_cases hq : q.1 = k
    · rw [show dictSet (q :: rest) k v = (k, v) :: rest from by
        show (if q.1 = k then (k, v) :: rest else q :: dictSet rest k v) = _
        rw [if_pos hq]] at hp
      rcases List.mem_cons.mp hp with h | h
      · rw [h]
        exact hv
      · exact hd p (List.mem_cons_of_mem _ h)
    · rw [show dictSet (q :: rest) k v = q :: dictSet rest k v from by
        show (if q.1 = k then (k, v) :: rest else q :: dictSet rest k v) = _
        rw [if_neg hq]] at hp
      rcases List.mem_cons.mp hp with h | h
      · rw [h]
        exact hd q (List.mem_cons_self _ _)
      · exact ih (fun q' hq' => hd q' (List.mem_cons_of_mem _ hq')) p h

theorem wfStep_names (d : WfDict) (run : WorkflowRun)
    (hd : ∀ p ∈ d, (p.2).name = p.1) :
    ∀ p ∈ wfStep d run, (p.2).name = p.1 := by
  cases hcur : dictLookup d run.name with
  | none =>
    rw [wfStep_lookup_none d run hcur]
    exact dictSet_names d run.name (statusOfRun run) hd rfl
  | some cur =>
    rw [wfStep_lookup_some d run cur hcur]
    by_cases hc : cur.updated_at < run.updated_at
    · rw [if_pos hc]
      exact dictSet_names d run.name (statusOfRun run) hd rfl
    · rw [if_neg hc]
      exact hd

theorem wfFold_names (runs : List WorkflowRun) :
    ∀ d : WfDict, (∀ p ∈ d, (p.2).name = p.1) →
      ∀ p ∈ wfFold d runs, (p.2).name = p.1 := by
  induction runs with
  | nil => exact fun d hd => hd
  | cons r0 rest ih =>
    intro d hd
    exact ih (wfStep d r0) (wfStep_names d r0 hd)

/-- Looking a name up among the dict's values agrees with key lookup when
every stored record's `name` equals its key. -/
theorem find?_map_snd (d : WfDict) (n : String)
    (hd : ∀ p ∈ d, (p.2).name = p.1) :
    (d.map (fun p => p.2)).find? (fun s => s.name = n) = dictLookup d n := by
  induction d with
  | nil => rfl
  | cons p rest ih =>
    have hp := hd p (List.mem_cons_self _ _)
    by_cases hn : p.1 = n
    · rw [List.map_cons, List.find?_cons_of_pos _ (by simp [hp, hn]),
        dictLookup_cons_of_eq _ _ _ hn]
    · rw [List.map_cons, List.find?_cons_of_neg _ (by simp [hp, hn]),
        dictLookup_cons_of_ne _ _ _ hn]
      exact ih (fun q hq => hd q (List.mem_cons_of_mem _ hq))

theorem mem_runsOf (events : List Event) (e : Event) (r : WorkflowRun)
    (he : e ∈ events) (hr : e.workflow_run = some r) : r ∈ runsOf events := by
  unfold runsOf
  exact List.mem_filterMap.mpr ⟨e, List.mem_filter.mpr ⟨he, by simp [hr]⟩, hr⟩

theorem runsOf_mem (events : List Event) (r' : WorkflowRun) (h : r' ∈ runsOf events) :
    ∃ e' ∈ events, e'.workflow_run = some r' := by
  unfold runsOf at h
  rcases List.mem_filterMap.mp h with ⟨e', he', hwr⟩
  exact ⟨e', (List.mem_filter.mp he').1, hwr⟩

/-- C3: for every log and workflow name, if the log holds an event whose
`workflow_run` is named `n` and whose `updated_at` string is
lexicographically strictly greater than that of every other event for
`n`, then `get_workflow_status` returns for `n` exactly that event's
(name, status, conclusion, run_number, updated_at, html_url) — wherever
that event sits in the log, i.e. regardless of append order. -/
theorem C3_latest_wins (events : List Event) (n : String) (e : Event) (r : WorkflowRun)
    (he : e ∈ events) (hr : e.workflow_run = some r) (hn : r.name = n)
    (hmax : ∀ e' ∈ events, ∀ r' : WorkflowRun, e'.workflow_run = some r' →
      r'.name = n → e' ≠ e → r'.updated_at < r.updated_at) :
    ∃ l : List WorkflowStatus,
      get_workflow_status (.wellFormed events) none = .ok (.statuses l) ∧
      l.find? (fun s => s.name = n) = some (statusOfRun r) := by
  cases events with
  | nil => cases he
  | cons e0 tl =>
    have hresult : get_workflow_status (.wellFormed (e0 :: tl)) none =
        .ok (.statuses ((wfFold [] (runsOf (e0 :: tl))).map
          (fun p : String × WorkflowStatus => p.2))) := rfl
    refine ⟨_, hresult, ?_⟩
    have hrmem : r ∈ runsOf (e0 :: tl) := mem_runsOf _ e r he hr
    have hdom : ∀ r' ∈ runsOf (e0 :: tl), r'.name = n →
        r' = r ∨ r'.updated_at < r.updated_at := by
      intro r' hr' hr'n
      rcases runsOf_mem _ r' hr' with ⟨e', he', hwr⟩
      by_cases hee : e' = e
      · subst hee
        rw [hr] at hwr
        exact Or.inl (Option.some.inj hwr).symm
      · exact Or.inr (hmax e' he' r' hwr hr'n hee)
    have hfind := wfFold_lookup_max (runsOf (e0 :: tl)) n r hn [] hrmem hdom
      (fun v hv => by cases hv)
    rw [find?_map_snd _ n (wfFold_names (runsOf (e0 :: tl)) []
      (fun p hp => absurd hp (List.not_mem_nil p)))]
    exact hfind

/-- A concrete `workflow_run` event, for the closed-form witnesses. -/
def eventOfRun (r : WorkflowRun) : Event :=
  { timestamp := r.updated_at
    event_type := "workflow_run"
    action := some "completed"
    workflow_run := some r
    check_run := none
    repository := some "octo/repo"
    sender := some "octocat" }

def runJan1 : WorkflowRun :=
  { name := "build", status := "in_progress", conclusion := none,
    run_number := 1, updated_at := "2024-01-01T00:00:00Z", html_url := "u1" }

def runJan2 : WorkflowRun :=
  { name := "build", status := "completed", conclusion := some "success",
    run_number := 2, updated_at := "2024-01-02T00:00:00Z", html_url := "u2" }

theorem runJan1_lt_runJan2 : runJan1.updated_at < runJan2.updated_at :=
  String.lt_iff_toList_lt.mpr (by decide)

/-- Witness for C3: the claim's own example — two "build" events with
`updated_at` 2024-01-01 and 2024-01-02 in either append order; the
aggregator returns the 2024-01-02 record both times. -/
theorem C3_witness :
    (∃ l : List WorkflowStatus,
      get_workflow_status (.wellFormed [eventOfRun runJan1, eventOfRun runJan2]) none =
        .ok (.statuses l) ∧
      l.find? (fun s => s.name = "build") = some (statusOfRun runJan2)) ∧
    (∃ l : List WorkflowStatus,
      get_workflow_status (.wellFormed [eventOfRun runJan2, eventOfRun runJan1]) none =
        .ok (.statuses l) ∧
      l.find? (fun s => s.name = "build") = some (statusOfRun runJan2)) := by
  constructor
  · apply C3_latest_wins _ "build" (eventOfRun runJan2) runJan2 (by decide) rfl rfl
    intro e' he' r' hwr _ hee
    rcases List.mem_cons.mp he' with h1 | h1
    · subst h1
      injection hwr with h2
      subst h2
      exact runJan1_lt_runJan2
    · rw [List.mem_singleton.mp h1] at hee
      exact absurd rfl hee
  · apply C3_latest_wins _ "build" (eventOfRun runJan2) runJan2 (by decide) rfl rfl
    intro e' he' r' hwr _ hee
    rcases List.mem_cons.mp he' with h1 | h1
    · rw [h1] at hee
      exact absurd rfl hee
    · rw [List.mem_singleton.mp h1] at hwr
      injection hwr with h2
      subst h2
      exact runJan1_lt_runJan2

/- ### Lemmas about the change-analysis embedding -/

theorem timeoutGuard_is_false (spec : ProcSpec) (oct : Option Nat)
    (ht : ∀ t, oct = some t → spec.duration ≤ t) : timeoutGuard spec oct = false := by
  cases oct with
  | none => rfl
  | some t =>
    simp only [timeoutGuard, decide_eq_false_iff_not]
    exact Nat.not_lt.mpr (ht t rfl)

theorem timeoutGuard_is_true (spec : ProcSpec) (t : Nat) (hd : t < spec.duration) :
    timeoutGuard spec (some t) = true := by
  simp only [timeoutGuard, decide_eq_true_eq]
  exact hd

theorem runGit_eq_completed (spec : ProcSpec) (call : GitCall)
    (hf : spec.found = true)
    (ht : ∀ t, call.timeout = some t → spec.duration ≤ t)
    (hk : call.check = true → spec.returncode = 0) :
    runGit spec call = .completed spec.stdout spec.stderr spec.returncode := by
  unfold runGit
  rw [if_neg (by simp [hf]),
    if_neg (by simp [timeoutGuard_is_false spec call.timeout ht]),
    if_neg (fun hand => hand.2 (hk hand.1))]

theorem runGit_eq_timeout (spec : ProcSpec) (call : GitCall)
    (hf : spec.found = true) (t : Nat) (hct : call.timeout = some t)
    (hd : t < spec.duration) : runGit spec call = .raisedTimeout := by
  unfold runGit
  rw [if_neg (by simp [hf]),
    if_pos (by rw [hct]; exact timeoutGuard_is_true spec t hd)]

theorem runGit_eq_processError (spec : ProcSpec) (call : GitCall)
    (hf : spec.found = true)
    (ht : ∀ t, call.timeout = some t → spec.duration ≤ t)
    (hk : call.check = true) (hc : spec.returncode ≠ 0) :
    runGit spec call = .raisedProcessError spec.returncode spec.stderr := by
  unfold runGit
  rw [if_neg (by simp [hf]),
    if_neg (by simp [timeoutGuard_is_false spec call.timeout ht]),
    if_pos ⟨hk, hc⟩]

/-- `CalledProcessError` can only come out of a call that passed
`check=True`. -/
theorem runGit_processError_check (spec : ProcSpec) (call : GitCall) (code : Int)
    (err : String) (h : runGit spec call = .raisedProcessError code err) :
    call.check = true := by
  unfold runGit at h
  split at h
  · simp at h
  · split at h
    · simp at h
    · split at h
      · next hcond => exact hcond.1
      · simp at h

theorem runGit_nocheck_ne_processError (spec : ProcSpec) (call : GitCall)
    (hc : call.check = false) (code : Int) (err : String) :
    runGit spec call ≠ .raisedProcessError code err := by
  intro h
  have hck := runGit_processError_check spec call code err h
  rw [hc] at hck
  exact Bool.noConfusion hck

/-- Every call the inner file-listing block issues carries
`timeout=command_timeout`. -/
theorem innerFilesStep_timeouts (env : GitEnv) (b : String) (ct : Nat) :
    ∀ c ∈ (innerFilesStep env b ct).2, c.timeout = some ct := by
  intro c hc
  unfold innerFilesStep at hc
  repeat' split at hc
  all_goals fin_cases hc <;> simp [filesListCall, filesStatusCall]

/-- Every call in an `analyze_file_changes` trace is bounded by
`command_timeout` — except the commit-list call. -/
theorem analyze_calls_timeouts (env : GitEnv) (b : String) (i : Bool) (m ct : Nat) :
    ∀ c ∈ (analyze_file_changes env b i m ct).2,
      c.timeout = some ct ∨ c = logCall b := by
  intro c hc
  unfold analyze_file_changes at hc
  repeat' split at hc
  all_goals rcases List.mem_append.mp hc with h | h
  all_goals
    first
      | exact Or.inl (innerFilesStep_timeouts env b ct c h)
      | (fin_cases h <;> simp [statCall, diffCall, logCall])

/-- The success result when `include_diff=false` and the statistics and
commit queries behave. -/
theorem analyze_ok_nodiff (env : GitEnv) (b : String) (m ct : Nat)
    (hs : env.stat.found = true) (hs2 : env.stat.duration ≤ ct)
    (hl : env.log.found = true) :
    analyze_file_changes env b false m ct =
      (.success ⟨b, (innerFilesStep env b ct).1, env.stat.stdout, env.log.stdout,
          diffNotIncluded, false, 0⟩,
       (innerFilesStep env b ct).2 ++ [statCall b ct, logCall b]) := by
  unfold analyze_file_changes
  rw [runGit_eq_completed env.stat (statCall b ct) hs
      (fun t h => (Option.some.inj h) ▸ hs2)
      (fun hck => by simp [statCall] at hck),
    runGit_eq_completed env.log (logCall b) hl
      (fun t h => by simp [logCall] at h)
      (fun hck => by simp [logCall] at hck)]
  try rfl

/-- The success result when `include_diff=true` and the statistics, diff
and commit queries behave. -/
theorem analyze_ok_diff (env : GitEnv) (b : String) (m ct : Nat)
    (hs : env.stat.found = true) (hs2 : env.stat.duration ≤ ct)
    (hd : env.diff.found = true) (hd2 : env.diff.duration ≤ ct)
    (hl : env.log.found = true) :
    analyze_file_changes env b true m ct =
      (.success ⟨b, (innerFilesStep env b ct).1, env.stat.stdout, env.log.stdout,
          (truncateDiff env.diff.stdout m).1, (truncateDiff env.diff.stdout m).2.1,
          (truncateDiff env.diff.stdout m).2.2⟩,
       (innerFilesStep env b ct).2 ++ [statCall b ct, diffCall b ct, logCall b]) := by
  unfold analyze_file_changes
  rw [runGit_eq_completed env.stat (statCall b ct) hs
      (fun t h => (Option.some.inj h) ▸ hs2)
      (fun hck => by simp [statCall] at hck),
    runGit_eq_completed env.diff (diffCall b ct) hd
      (fun t h => (Option.some.inj h) ▸ hd2)
      (fun hck => by simp [diffCall] at hck),
    runGit_eq_completed env.log (logCall b) hl
      (fun t h => by simp [logCall] at h)
      (fun hck => by simp [logCall] at hck)]
  rfl

/-- A statistics query outliving `command_timeout` reaches the outer
`TimeoutExpired` handler. -/
theorem analyze_stat_timeout (env : GitEnv) (b : String) (i : Bool) (m ct : Nat)
    (hs : env.stat.found = true) (hd : ct < env.stat.duration) :
    (analyze_file_changes env b i m ct).1 = .timeoutError (timeoutDetails ct) := by
  unfold analyze_file_changes
  rw [runGit_eq_timeout env.stat (statCall b ct) hs ct rfl hd]

/-- A diff query outliving `command_timeout` reaches the outer
`TimeoutExpired` handler. -/
theorem analyze_diff_timeout (env : GitEnv) (b : String) (m ct : Nat)
    (hs : env.stat.found = true) (hs2 : env.stat.duration ≤ ct)
    (hdf : env.diff.found = true) (hdd : ct < env.diff.duration) :
    (analyze_file_changes env b true m ct).1 = .timeoutError (timeoutDetails ct) := by
  unfold analyze_file_changes
  rw [runGit_eq_completed env.stat (statCall b ct) hs
      (fun t h => (Option.some.inj h) ▸ hs2)
      (fun hck => by simp [statCall] at hck),
    runGit_eq_timeout env.diff (diffCall b ct) hdf ct rfl hdd]
  rfl

/-- A file-list query outliving `command_timeout` is caught by the inner
handler: empty listing, analysis continues. -/
theorem innerFilesStep_timeout_swallowed (env : GitEnv) (b : String) (ct : Nat)
    (hf : env.filesList.found = true) (hd : ct < env.filesList.duration) :
    innerFilesStep env b ct = ("", [filesListCall b ct]) := by
  unfold innerFilesStep
  rw [runGit_eq_timeout env.filesList (filesListCall b ct) hf ct rfl hd]

/-- A file-list query exiting nonzero is caught by the inner handler:
empty listing, analysis continues. -/
theorem innerFilesStep_fail_swallowed (env : GitEnv) (b : String) (ct : Nat)
    (hf : env.filesList.found = true) (ht : env.filesList.duration ≤ ct)
    (hc : env.filesList.returncode ≠ 0) :
    innerFilesStep env b ct = ("", [filesListCall b ct]) := by
  unfold innerFilesStep
  rw [runGit_eq_processError env.filesList (filesListCall b ct) hf
    (fun t h => (Option.some.inj h) ▸ ht) rfl hc]

/-- The outer `CalledProcessError` handler is unreachable: the only
queries run with `check=True` sit inside the inner try block, whose own
handler catches the error first. -/
theorem analyze_never_gitFailed (env : GitEnv) (b : String) (i : Bool) (m ct : Nat)
    (d : String) : (analyze_file_changes env b i m ct).1 ≠ .gitFailedError d := by
  intro heq
  unfold analyze_file_changes at heq
  rcases hstat : runGit env.stat (statCall b ct) with ⟨o1, e1, c1⟩ | _ | _ | ⟨code, err⟩
  · rw [hstat] at heq
    cases i with
    | false =>
      rcases hlog : runGit env.log (logCall b) with ⟨o3, e3, c3⟩ | _ | _ | ⟨code3, err3⟩
      · rw [hlog] at heq
        simp at heq
      · rw [hlog] at heq
        simp at heq
      · rw [hlog] at heq
        simp at heq
      · exact runGit_nocheck_ne_processError env.log (logCall b) rfl code3 err3 hlog
    | true =>
      rcases hdiff : runGit env.diff (diffCall b ct) with ⟨o2, e2, c2⟩ | _ | _ | ⟨code2, err2⟩
      · rw [hdiff] at heq
        rcases hlog : runGit env.log (logCall b) with ⟨o3, e3, c3⟩ | _ | _ | ⟨code3, err3⟩
        · rw [hlog] at heq
          simp at heq
        · rw [hlog] at heq
          simp at heq
        · rw [hlog] at heq
          simp at heq
        · exact runGit_nocheck_ne_processError env.log (logCall b) rfl code3 err3 hlog
      · rw [hdiff] at heq
        simp at heq
      · rw [hdiff] at heq
        simp at heq
      · exact runGit_nocheck_ne_processError env.diff (diffCall b ct) rfl code2 err2 hdiff
  · rw [hstat] at heq
    simp at heq
  · rw [hstat] at heq
    simp at heq
  · exact runGit_nocheck_ne_processError env.stat (statCall b ct) rfl code err hstat

/-- Calls issued by the inner file-listing block never carry the
full-diff argv. -/
theorem innerFilesStep_no_diffCall (env : GitEnv) (b : String) (ct : Nat) :
    ∀ c ∈ (innerFilesStep env b ct).2, c.args ≠ (diffCall b ct).args := by
  intro c hc
  unfold innerFilesStep at hc
  repeat' split at hc
  all_goals fin_cases hc <;> simp [filesListCall, filesStatusCall, diffCall]

/-- C5 counterexample: the commit-list query is issued with no time
bound at all, and even when it runs far beyond `command_timeout`
(duration 10^9 against the default 180) the analysis returns a
success-shaped result rather than a timeout classification; likewise a
file-list query exceeding `command_timeout` is swallowed into a
success-shaped result instead of a timeout-classified one. -/
theorem C5_counterexample :
    (analyze_file_changes envSlowLog "master" false 5000 180).2.any
        (fun c => c.timeout = none) = true ∧
    180 < envSlowLog.log.duration ∧
    (analyze_file_changes envSlowLog "master" false 5000 180).1.isSuccess = true ∧
    180 < envFilesTimeout.filesList.duration ∧
    (analyze_file_changes envFilesTimeout "master" false 5000 180).1.isSuccess = true := by
  decide

/-- C5 amended: the file-list, per-file-status, statistics and full-diff
queries each carry `timeout=command_timeout`, but the commit-list query
carries none; a statistics or full-diff query exceeding
`command_timeout` yields the structured timeout result whose detail
text embeds the configured value; a file-list query exceeding it is
caught by the inner handler and flows on with an empty file listing. -/
theorem C5_amended_timeout_bounds (b : String) (i : Bool) (m ct : Nat) :
    (∀ env : GitEnv, ∀ c ∈ (analyze_file_changes env b i m ct).2,
        c.timeout = some ct ∨ c = logCall b) ∧
    (logCall b).timeout = none ∧
    (∃ pre post, timeoutDetails ct = pre ++ toString ct ++ post) ∧
    (∀ env : GitEnv, env.stat.found = true → ct < env.stat.duration →
        (analyze_file_changes env b i m ct).1 = .timeoutError (timeoutDetails ct)) ∧
    (∀ env : GitEnv, env.stat.found = true → env.stat.duration ≤ ct →
        env.diff.found = true → ct < env.diff.duration →
        (analyze_file_changes env b true m ct).1 = .timeoutError (timeoutDetails ct)) ∧
    (∀ env : GitEnv, env.filesList.found = true → ct < env.filesList.duration →
        innerFilesStep env b ct = ("", [filesListCall b ct])) :=
  ⟨fun env => analyze_calls_timeouts env b i m ct, rfl,
   ⟨"Git command timed out after ",
    " seconds. The repository might be too large or the diff too complex.", rfl⟩,
   fun env hf hd => analyze_stat_timeout env b i m ct hf hd,
   fun env hs hs2 hdf hdd => analyze_diff_timeout env b m ct hs hs2 hdf hdd,
   fun env hf hd => innerFilesStep_timeout_swallowed env b ct hf hd⟩

/-- Witness for C5 amended at concrete environments and the default
parameters. -/
theorem C5_amended_witness :
    (logCall "master").timeout = none ∧
    (analyze_file_changes envStatTimeout "master" false 5000 180).1 =
      .timeoutError (timeoutDetails 180) ∧
    innerFilesStep envFilesTimeout "master" 180 = ("", [filesListCall "master" 180]) :=
  ⟨(C5_amended_timeout_bounds "master" false 5000 180).2.1,
   (C5_amended_timeout_bounds "master" false 5000 180).2.2.2.1 envStatTimeout
     (by decide) (by decide),
   (C5_amended_timeout_bounds "master" false 5000 180).2.2.2.2.2 envFilesTimeout
     (by decide) (by decide)⟩

/-- C6 counterexample: the file-list query exits with status 1, yet the
analysis returns a success-shaped result with an empty `files_changed`
— the nonzero exit is logged by the inner handler and otherwise
silently swallowed. -/
theorem C6_counterexample :
    envFilesFail.filesList.returncode ≠ 0 ∧
    (analyze_file_changes envFilesFail "master" false 5000 180).1 =
      .success ⟨"master", "", " 1 file changed\n", "abc123 msg\n",
        diffNotIncluded, false, 0⟩ :=
  ⟨by decide, rfl⟩

/-- C6 amended: a nonzero exit of the file-list query is caught by the
inner handler and folded into a success-shaped result with an empty
file listing; the outer "Git command execution failed" classification
is unreachable from the five queries (only the inner, swallowed calls
pass `check=True`). -/
theorem C6_amended_swallowed (env : GitEnv) (b : String) (m ct : Nat)
    (hff : env.filesList.found = true) (hfd : env.filesList.duration ≤ ct)
    (hfc : env.filesList.returncode ≠ 0)
    (hs : env.stat.found = true) (hs2 : env.stat.duration ≤ ct)
    (hl : env.log.found = true) :
    innerFilesStep env b ct = ("", [filesListCall b ct]) ∧
    (analyze_file_changes env b false m ct).1 =
      .success ⟨b, "", env.stat.stdout, env.log.stdout, diffNotIncluded, false, 0⟩ ∧
    ∀ (env2 : GitEnv) (b2 : String) (i2 : Bool) (m2 ct2 : Nat) (d : String),
      (analyze_file_changes env2 b2 i2 m2 ct2).1 ≠ .gitFailedError d := by
  have h1 := innerFilesStep_fail_swallowed env b ct hff hfd hfc
  refine ⟨h1, ?_, fun env2 b2 i2 m2 ct2 d => analyze_never_gitFailed env2 b2 i2 m2 ct2 d⟩
  rw [analyze_ok_nodiff env b m ct hs hs2 hl, h1]

/-- Witness for C6 amended at a concrete failing environment. -/
theorem C6_amended_witness :
    innerFilesStep envFilesFail "master" 180 = ("", [filesListCall "master" 180]) ∧
    (analyze_file_changes envFilesFail "master" false 5000 180).1 =
      .success ⟨"master", "", envFilesFail.stat.stdout, envFilesFail.log.stdout,
        diffNotIncluded, false, 0⟩ ∧
    (analyze_file_changes envAllOk "master" false 5000 180).1 ≠
      .gitFailedError "boom" :=
  ⟨(C6_amended_swallowed envFilesFail "master" 5000 180 (by decide) (by decide)
      (by decide) (by decide) (by decide) (by decide)).1,
   (C6_amended_swallowed envFilesFail "master" 5000 180 (by decide) (by decide)
      (by decide) (by decide) (by decide) (by decide)).2.1,
   (C6_amended_swallowed envFilesFail "master" 5000 180 (by decide) (by decide)
      (by decide) (by decide) (by decide) (by decide)).2.2 envAllOk "master" false
      5000 180 "boom"⟩

/-- C7: with `include_diff=true` and the queries behaving, a diff whose
newline-split line count exceeds `max_diff_lines` yields exactly the
first `max_diff_lines` original lines rejoined, followed by the
truncation notice (which names the shown and total counts and the
parameter to request more), with truncated=true and total_diff_lines
the full count; a diff within the bound is returned whole with
truncated=false. -/
theorem C7_diff_truncation (env : GitEnv) (b : String) (m ct : Nat)
    (hs : env.stat.found = true) (hs2 : env.stat.duration ≤ ct)
    (hd : env.diff.found = true) (hd2 : env.diff.duration ≤ ct)
    (hl : env.log.found = true) :
    (m < (splitNl env.diff.stdout).length →
      (analyze_file_changes env b true m ct).1 =
        .success ⟨b, (innerFilesStep env b ct).1, env.stat.stdout, env.log.stdout,
          joinNl ((splitNl env.diff.stdout).take m) ++
            truncationNotice m (splitNl env.diff.stdout).length,
          true, (splitNl env.diff.stdout).length⟩) ∧
    ((splitNl env.diff.stdout).length ≤ m →
      (analyze_file_changes env b true m ct).1 =
        .success ⟨b, (innerFilesStep env b ct).1, env.stat.stdout, env.log.stdout,
          env.diff.stdout, false, (splitNl env.diff.stdout).length⟩) := by
  constructor
  · intro hmn
    rw [analyze_ok_diff env b m ct hs hs2 hd hd2 hl]
    unfold truncateDiff
    rw [if_pos hmn]
  · intro hnm
    rw [analyze_ok_diff env b m ct hs hs2 hd hd2 hl]
    unfold truncateDiff
    rw [if_neg (Nat.not_lt.mpr hnm)]

/-- All fine, with a six-line diff output. -/
def envDiff6 : GitEnv :=
  { envAllOk with diff := okStep "l1\nl2\nl3\nl4\nl5\nl6" }

/-- Witness for C7: a 6-line diff against `max_diff_lines=5`. -/
theorem C7_witness :
    5 < (splitNl envDiff6.diff.stdout).length ∧
    (analyze_file_changes envDiff6 "master" true 5 180).1 =
      .success ⟨"master", (innerFilesStep envDiff6 "master" 180).1,
        envDiff6.stat.stdout, envDiff6.log.stdout,
        joinNl ((splitNl envDiff6.diff.stdout).take 5) ++
          truncationNotice 5 (splitNl envDiff6.diff.stdout).length,
        true, (splitNl envDiff6.diff.stdout).length⟩ :=
  ⟨by decide,
   (C7_diff_truncation envDiff6 "master" 5 180 (by decide) (by decide) (by decide)
      (by decide) (by decide)).1 (by decide)⟩

/-- C8: with `include_diff=false` every success-shaped result carries
the literal "not included" marker and `total_diff_lines = 0`
(regardless of the environment, hence of actual diff size), the
behaving-environment result is exactly that, and no call in the trace
ever carries the full-diff argv. -/
theorem C8_diff_not_included (b : String) (m ct : Nat) :
    (∀ env : GitEnv, env.stat.found = true → env.stat.duration ≤ ct →
      env.log.found = true →
      (analyze_file_changes env b false m ct).1 =
        .success ⟨b, (innerFilesStep env b ct).1, env.stat.stdout, env.log.stdout,
          diffNotIncluded, false, 0⟩) ∧
    (∀ env : GitEnv, ∀ a : AnalysisSuccess,
      (analyze_file_changes env b false m ct).1 = .success a →
      a.diff = diffNotIncluded ∧ a.total_diff_lines = 0) ∧
    (∀ env : GitEnv, ∀ c ∈ (analyze_file_changes env b false m ct).2,
      c.args ≠ (diffCall b ct).args) := by
  refine ⟨fun env hs hs2 hl => by rw [analyze_ok_nodiff env b m ct hs hs2 hl], ?_, ?_⟩
  · intro env a heq
    unfold analyze_file_changes at heq
    repeat' split at heq
    all_goals
      first
        | exact absurd ‹false = true› (by decide)
        | (simp at heq ; done)
        | (injection heq with h2 ; subst h2 ; exact ⟨rfl, rfl⟩)
  · intro env c hc
    unfold analyze_file_changes at hc
    repeat' split at hc
    all_goals
      first
        | exact absurd ‹false = true› (by decide)
        | (rcases List.mem_append.mp hc with h | h
           · exact innerFilesStep_no_diffCall env b ct c h
           · fin_cases h <;> simp [statCall, logCall, diffCall])

/-- Witness for C8 at a concrete environment with a large diff output
that is never queried. -/
theorem C8_witness :
    (analyze_file_changes envDiff6 "master" false 5000 180).1 =
      .success ⟨"master", (innerFilesStep envDiff6 "master" 180).1,
        envDiff6.stat.stdout, envDiff6.log.stdout, diffNotIncluded, false, 0⟩ ∧
    ((analyze_file_changes envDiff6 "master" false 5000 180).2.all
      (fun c => c.args ≠ (diffCall "master" 5000).args)) = true := by
  constructor
  · exact (C8_diff_not_included "master" 5000 180).1 envDiff6 (by decide) (by decide)
      (by decide)
  · decide

/-- C4 amended: for every limit and name filter, a corrupt events file
makes both read tools propagate the JSON decode fault uncaught, while an
absent file yields the structured empty / "no events yet" results. -/
theorem C4_amended_corrupt_propagates :
    (∀ limit : Int, get_recent_actions_events .corrupt limit = .error .decodeError) ∧
    (∀ wn : Option String, get_workflow_status .corrupt wn = .error .decodeError) ∧
    (∀ limit : Int, get_recent_actions_events .absent limit = .ok []) ∧
    (∀ wn : Option String,
      get_workflow_status .absent wn = .ok (.message "No GitHub Actions events received yet")) := by
  refine ⟨fun _ => rfl, fun _ => rfl, fun _ => rfl, fun _ => rfl⟩

/-- C9: template selection is total and deterministic over the label:
the label is lowercased before lookup, "fix" resolves to the same file
as "bug", labels outside the mapping resolve to the feature file; when
the catalog has no entry for the chosen filename the first catalog
entry is recommended instead; and the operation fails exactly when the
catalog itself is empty. -/
theorem C9_template_selection (templates : List Template) (cs ct : String) :
    ((∃ m s, suggest_template templates cs ct = .error m s) ↔ templates = []) ∧
    selectedFileFor "fix" = selectedFileFor "bug" ∧
    (∀ label : String, selectedFileFor label = typeMappingGet (pyLower label) "feature.md") ∧
    (TYPE_MAPPING.find? (fun p => p.1 = pyLower ct) = none →
      selectedFileFor ct = "feature.md") ∧
    (∀ (t0 : Template) (rest : List Template), templates = t0 :: rest →
      templates.find? (fun t => t.filename = selectedFileFor ct) = none →
      ∃ reasoning tc uh, suggest_template templates cs ct = .ok t0 reasoning tc uh) := by
  refine ⟨⟨?_, ?_⟩, by decide, fun _ => rfl, ?_, ?_⟩
  · rintro ⟨m, s, h⟩
    cases templates with
    | nil => rfl
    | cons t0 rest => exact SuggestResult.noConfusion h
  · rintro rfl
    exact ⟨_, _, rfl⟩
  · intro h
    simp [selectedFileFor, typeMappingGet, h]
  · intro t0 rest htm hfind
    subst htm
    refine ⟨"Based on your analysis: \x27" ++ cs ++ "\x27, this appears to be a " ++
        ct ++ " change.", t0.content,
      "Claude can help you fill out this template based on the specific changes in your PR.",
      ?_⟩
    simp [suggest_template, hfind]

def tplBug : Template := ⟨"bug.md", "Bug Fix", "bug template content"⟩

def tplFeature : Template := ⟨"feature.md", "Feature", "feature template content"⟩

/-- Witness for C9 at concrete catalogs and labels: "fix" selects the
bug file; "chore" (not in the mapping) selects the feature file; a
catalog without the chosen file recommends its first entry; the empty
catalog is the only failing case. -/
theorem C9_witness :
    selectedFileFor "fix" = selectedFileFor "bug" ∧
    selectedFileFor "chore" = "feature.md" ∧
    (∃ r tc uh, suggest_template [tplFeature] "s" "bug" = .ok tplFeature r tc uh) ∧
    (∃ m s, suggest_template ([] : List Template) "s" "bug" = .error m s) :=
  ⟨(C9_template_selection [tplBug, tplFeature] "s" "fix").2.1,
   (C9_template_selection [tplBug, tplFeature] "s" "chore").2.2.2.1 (by decide),
   (C9_template_selection [tplFeature] "s" "bug").2.2.2.2 tplFeature [] rfl (by decide),
   (C9_template_selection ([] : List Template) "s" "bug").1.mpr rfl⟩

end GithubAgent
